import Mathlib

/-!
Verification development for the Auto_Defect pipeline's orchestration and
checkpointing layer.  The Python sources (status_manager.py, pathfinder_step.py,
neb_step.py, io_step.py) are shallowly embedded below: dictionaries become
structures, the filesystem becomes an explicit map from directory names to file
contents, and mutable module-level state (the `DEFAULT_STATUS` dictionary,
which `get_status` returns by reference in two of its branches) is threaded as
an explicit component of the store state.
-/

set_option maxHeartbeats 1000000

/-- The checkpoint record, mirroring the `DEFAULT_STATUS` schema of
status_manager.py: two relaxation flags, two step counters, two completion
flags and two optional result values. -/
structure Status where
  initial_relax_complete : Bool
  final_relax_complete : Bool
  neb_steps_taken : Nat
  neb_climb_steps_taken : Nat
  neb_analysis_complete : Bool
  prefactor_complete : Bool
  neb_barrier_eV : Option Rat
  prefactor_THz : Option Rat
  deriving Repr, DecidableEq

/-- The default checkpoint record (`DEFAULT_STATUS` in status_manager.py). -/
def DEFAULT_STATUS : Status :=
  { initial_relax_complete := false
    final_relax_complete := false
    neb_steps_taken := 0
    neb_climb_steps_taken := 0
    neb_analysis_complete := false
    prefactor_complete := false
    neb_barrier_eV := none
    prefactor_THz := none }

/-- An on-disk status record: a JSON object that may lack some schema keys
(`get_status` fills the missing ones from `DEFAULT_STATUS` after parsing). -/
structure PartialStatus where
  initial_relax_complete : Option Bool
  final_relax_complete : Option Bool
  neb_steps_taken : Option Nat
  neb_climb_steps_taken : Option Nat
  neb_analysis_complete : Option Bool
  prefactor_complete : Option Bool
  neb_barrier_eV : Option (Option Rat)
  prefactor_THz : Option (Option Rat)
  deriving Repr, DecidableEq

/-- Content of a status.json file: either a parseable record (possibly with
missing keys) or bytes that raise `json.JSONDecodeError`. -/
inductive FileContent
  | corrupt : FileContent
  | valid : PartialStatus → FileContent
  deriving Repr, DecidableEq

/-- State of the checkpoint store: the filesystem (status.json per directory)
plus the current value of the module-level `DEFAULT_STATUS` dictionary.  The
latter is mutable state because `get_status` returns that very dictionary (not
a copy) when the file is absent or corrupted, and `update_status` then mutates
the returned dictionary in place. -/
structure SMState where
  fs : String → Option FileContent
  defaults : Status

/-- Result of `get_status`: the returned record, whether the returned
dictionary is the module-level `DEFAULT_STATUS` object itself (an alias, not a
copy), and the filesystem state after the call. -/
structure ReadResult where
  record : Status
  aliased : Bool
  state : SMState

/-- Serialization of a full in-memory record to a file (json.dump writes every
key of the dictionary). -/
def statusToPartial (s : Status) : PartialStatus :=
  { initial_relax_complete := some s.initial_relax_complete
    final_relax_complete := some s.final_relax_complete
    neb_steps_taken := some s.neb_steps_taken
    neb_climb_steps_taken := some s.neb_climb_steps_taken
    neb_analysis_complete := some s.neb_analysis_complete
    prefactor_complete := some s.prefactor_complete
    neb_barrier_eV := some s.neb_barrier_eV
    prefactor_THz := some s.prefactor_THz }

/-- The key-merging loop of `get_status`: every schema key missing from the
parsed record is filled from `DEFAULT_STATUS`. -/
def mergeDefaults (p : PartialStatus) (d : Status) : Status :=
  { initial_relax_complete := p.initial_relax_complete.getD d.initial_relax_complete
    final_relax_complete := p.final_relax_complete.getD d.final_relax_complete
    neb_steps_taken := p.neb_steps_taken.getD d.neb_steps_taken
    neb_climb_steps_taken := p.neb_climb_steps_taken.getD d.neb_climb_steps_taken
    neb_analysis_complete := p.neb_analysis_complete.getD d.neb_analysis_complete
    prefactor_complete := p.prefactor_complete.getD d.prefactor_complete
    neb_barrier_eV := p.neb_barrier_eV.getD d.neb_barrier_eV
    prefactor_THz := p.prefactor_THz.getD d.prefactor_THz }

/-- `get_status(directory)` of status_manager.py.  Three branches: file absent
(write the defaults, return the `DEFAULT_STATUS` object itself), file corrupt
(warn, overwrite with defaults, return the `DEFAULT_STATUS` object itself),
file parseable (merge missing keys into the freshly parsed dictionary and
return it; no write happens). -/
def get_status (st : SMState) (dir : String) : ReadResult :=
  match st.fs dir with
  | none =>
      { record := st.defaults
        aliased := true
        state :=
          { st with
            fs := Function.update st.fs dir
              (some (FileContent.valid (statusToPartial st.defaults))) } }
  | some FileContent.corrupt =>
      { record := st.defaults
        aliased := true
        state :=
          { st with
            fs := Function.update st.fs dir
              (some (FileContent.valid (statusToPartial st.defaults))) } }
  | some (FileContent.valid p) =>
      { record := mergeDefaults p st.defaults
        aliased := false
        state := st }

/-- Keys of the status schema. -/
inductive StatusKey
  | initialRelaxComplete
  | finalRelaxComplete
  | nebStepsTaken
  | nebClimbStepsTaken
  | nebAnalysisComplete
  | prefactorComplete
  | nebBarrier_eV
  | prefactorTHz
  deriving Repr, DecidableEq

/-- The type of the value stored under each schema key. -/
def StatusKey.Val : StatusKey → Type
  | .initialRelaxComplete => Bool
  | .finalRelaxComplete => Bool
  | .nebStepsTaken => Nat
  | .nebClimbStepsTaken => Nat
  | .nebAnalysisComplete => Bool
  | .prefactorComplete => Bool
  | .nebBarrier_eV => Option Rat
  | .prefactorTHz => Option Rat

/-- Read one field of a record by key. -/
def getKey (s : Status) : (k : StatusKey) → k.Val
  | .initialRelaxComplete => s.initial_relax_complete
  | .finalRelaxComplete => s.final_relax_complete
  | .nebStepsTaken => s.neb_steps_taken
  | .nebClimbStepsTaken => s.neb_climb_steps_taken
  | .nebAnalysisComplete => s.neb_analysis_complete
  | .prefactorComplete => s.prefactor_complete
  | .nebBarrier_eV => s.neb_barrier_eV
  | .prefactorTHz => s.prefactor_THz

/-- The dictionary assignment `status[key_to_update] = value`. -/
def setKey (s : Status) : (k : StatusKey) → k.Val → Status
  | .initialRelaxComplete, v => { s with initial_relax_complete := v }
  | .finalRelaxComplete, v => { s with final_relax_complete := v }
  | .nebStepsTaken, v => { s with neb_steps_taken := v }
  | .nebClimbStepsTaken, v => { s with neb_climb_steps_taken := v }
  | .nebAnalysisComplete, v => { s with neb_analysis_complete := v }
  | .prefactorComplete, v => { s with prefactor_complete := v }
  | .nebBarrier_eV, v => { s with neb_barrier_eV := v }
  | .prefactorTHz, v => { s with prefactor_THz := v }

/-- `update_status(directory, key_to_update, value)` of status_manager.py:
re-read the record with `get_status`, assign one key in the returned
dictionary, write the full dictionary back.  When the record returned by
`get_status` was the `DEFAULT_STATUS` object itself (absent/corrupt branch),
that in-place assignment mutates the module-level defaults too. -/
def update_status (st : SMState) (dir : String) (k : StatusKey) (v : k.Val) :
    SMState :=
  let r := get_status st dir
  let s1 := setKey r.record k v
  let st1 := if r.aliased then { r.state with defaults := s1 } else r.state
  { st1 with
    fs := Function.update st1.fs dir
      (some (FileContent.valid (statusToPartial s1))) }

/-- A store state whose global defaults are pristine and whose filesystem
holds the given files. -/
def smState (fs : String → Option FileContent) : SMState :=
  { fs := fs, defaults := DEFAULT_STATUS }

/-! ## Hop deduplication (pathfinder_step.py) -/

/-- Round-half-to-even of a rational to an integer, the rounding Python's
built-in `round` performs on an exact tie (documented round-half-even
semantics of `round(float, ndigits)` on exactly representable values). -/
def roundHalfEvenInt (x : Rat) : Int :=
  if x - (⌊x⌋ : Rat) < 1 / 2 then ⌊x⌋
  else if (1 : Rat) / 2 < x - (⌊x⌋ : Rat) then ⌊x⌋ + 1
  else if ⌊x⌋ % 2 = 0 then ⌊x⌋ else ⌊x⌋ + 1

/-- `round(distance, distance_precision)` as used in pathfinder_step.py:
Python's banker rounding at `ndigits` decimal places. -/
def pyRound (ndigits : Nat) (x : Rat) : Rat :=
  ((roundHalfEvenInt (x * 10 ^ ndigits) : Int) : Rat) / 10 ^ ndigits

/-- Modelled from the spec: "half-up rounding at the stated precision", where
a distance exactly midway between two representable values rounds away from
zero (distances are positive, so half-up and half-away-from-zero agree).
Used only to compare the spec's rounding rule with the code's `pyRound`. -/
def roundHalfUpAt (ndigits : Nat) (x : Rat) : Rat :=
  ((⌊x * 10 ^ ndigits + 1 / 2⌋ : Int) : Rat) / 10 ^ ndigits

/-- One entry of the radius neighbor search result (`neighbor.as_dict()`):
the neighbor's site index, its distance (`nn_distance`) and its species
symbol. -/
structure Neighbor where
  index : Nat
  nn_distance : Rat
  symbol : String
  deriving Repr, DecidableEq

/-- The inputs `find_unique_hops` consumes from its collaborators: the site
species list, the symmetry analyzer's `equivalent_atoms` mapping, and the
radius neighbor search results (in return order) for each site at the
configured `max_hop_distance`. -/
structure Xtal where
  species : List String
  equivalent_atoms : Nat → Nat
  neighbors : Nat → List Neighbor

/-- A hop signature: sorted pair of equivalence-class representatives plus
the rounded distance. -/
def HopSig : Type := (Nat × Nat) × Rat

instance : DecidableEq HopSig := by
  unfold HopSig
  infer_instance

/-- `tuple(sorted((a, b)))` for a two-element pair. -/
def sortPair (a b : Nat) : Nat × Nat :=
  if a ≤ b then (a, b) else (b, a)

/-- The `hop_type` computed in find_unique_hops for origin `start_idx` and a
neighbor entry. -/
def hopSig (x : Xtal) (prec : Nat) (start_idx : Nat) (nb : Neighbor) : HopSig :=
  (sortPair (x.equivalent_atoms start_idx) (x.equivalent_atoms nb.index),
   pyRound prec nb.nn_distance)

/-- `all_migrating_ion_indices`: the indices whose species symbol equals the
migrating element, in index order. -/
def migratingIndices (x : Xtal) (mig : String) : List Nat :=
  (List.range x.species.length).filter (fun i => x.species.getD i "" = mig)

/-- The inner loop of find_unique_hops over one origin's neighbor list,
threading the seen-signature set and the output list. -/
def process_neighbors (x : Xtal) (mig : String) (prec : Nat) (start_idx : Nat) :
    List Neighbor → List HopSig → List (Nat × Nat) →
      List HopSig × List (Nat × Nat)
  | [], seen, out => (seen, out)
  | nb :: rest, seen, out =>
    if nb.symbol = mig then
      if hopSig x prec start_idx nb ∈ seen then
        process_neighbors x mig prec start_idx rest seen out
      else
        process_neighbors x mig prec start_idx rest
          (hopSig x prec start_idx nb :: seen) (out ++ [(start_idx, nb.index)])
    else process_neighbors x mig prec start_idx rest seen out

/-- The outer loop of find_unique_hops over all migrating-ion origins. -/
def process_origins (x : Xtal) (mig : String) (prec : Nat) :
    List Nat → List HopSig → List (Nat × Nat) → List HopSig × List (Nat × Nat)
  | [], seen, out => (seen, out)
  | i :: rest, seen, out =>
    let r := process_neighbors x mig prec i (x.neighbors i) seen out
    process_origins x mig prec rest r.1 r.2

/-- `find_unique_hops(structure, migrating_element, max_hop_distance,
distance_precision)` of pathfinder_step.py (the radius bound is already folded
into `Xtal.neighbors`, the collaborator's output). -/
def find_unique_hops (x : Xtal) (mig : String) (prec : Nat) :
    List (Nat × Nat) :=
  let idxs := migratingIndices x mig
  if idxs.isEmpty then []
  else (process_origins x mig prec idxs [] []).2

/-- A traversal candidate: an origin index paired with one of its
migrating-species neighbor entries. -/
structure Candidate where
  origin : Nat
  nb : Neighbor
  deriving Repr, DecidableEq

/-- The hop a candidate contributes when retained. -/
def Candidate.hop (c : Candidate) : Nat × Nat := (c.origin, c.nb.index)

/-- The signature of a candidate. -/
def candSig (x : Xtal) (prec : Nat) (c : Candidate) : HopSig :=
  hopSig x prec c.origin c.nb

/-- The candidates contributed by one origin, in neighbor return order. -/
def originCands (x : Xtal) (mig : String) (i : Nat) : List Candidate :=
  ((x.neighbors i).filter (fun nb => nb.symbol = mig)).map
    (fun nb => ⟨i, nb⟩)

/-- The full traversal order: origins in index order, then neighbors in
radius-search return order, keeping only migrating-species neighbors. -/
def candidateList (x : Xtal) (mig : String) (idxs : List Nat) :
    List Candidate :=
  idxs.flatMap (originCands x mig)

/-- First-occurrence filter by signature with an explicit seen set; returns
the retained candidates and the final seen set. -/
def dedupFirstS (sig : Candidate → HopSig) :
    List Candidate → List HopSig → List Candidate × List HopSig
  | [], seen => ([], seen)
  | c :: cs, seen =>
    if sig c ∈ seen then dedupFirstS sig cs seen
    else
      let r := dedupFirstS sig cs (sig c :: seen)
      (c :: r.1, r.2)

/-! ## Retry-strategy runner (neb_step.py) -/

/-- The two optimizer classes tried by run_neb_calculation. -/
inductive OptAlgo
  | FIRE
  | LBFGS
  deriving Repr, DecidableEq

/-- One entry of `optimizers_to_try`: optimizer class, NEB method string, and
convergence tolerance. -/
structure OptimizerConfig where
  optimizer : OptAlgo
  method : String
  fmax : Rat
  deriving Repr, DecidableEq

/-- The standard-stage configuration list of run_neb_calculation. -/
def optimizers_to_try : List OptimizerConfig :=
  [⟨OptAlgo.FIRE, "improvedtangent", 1 / 100⟩,
   ⟨OptAlgo.FIRE, "aseneb", 1 / 100⟩,
   ⟨OptAlgo.LBFGS, "improvedtangent", 1 / 100⟩,
   ⟨OptAlgo.LBFGS, "aseneb", 1 / 100⟩]

/-- The climbing-stage configuration list of run_neb_calculation. -/
def climb_optimizers_to_try : List OptimizerConfig :=
  [⟨OptAlgo.FIRE, "improvedtangent", 1 / 1000⟩,
   ⟨OptAlgo.FIRE, "aseneb", 1 / 1000⟩,
   ⟨OptAlgo.LBFGS, "improvedtangent", 1 / 1000⟩,
   ⟨OptAlgo.LBFGS, "aseneb", 1 / 1000⟩]

/-- Outcome of one `optimizer.run(fmax, steps=max_steps)` call: whether it
reported convergence, and `optimizer.nsteps`. -/
structure AttemptOutcome where
  converged : Bool
  nsteps : Nat
  deriving Repr, DecidableEq

/-- The per-stage retry loop of run_neb_calculation: attempt each
configuration in order (each attempt built fresh, behaviour supplied by the
`oracle` collaborator); on the first convergence record that attempt's step
count and stop; if none converges record the full budget.  Returns
`((converged, steps_recorded), configurations attempted in order)`. -/
def run_attempts (oracle : OptimizerConfig → AttemptOutcome) (max_steps : Nat) :
    List OptimizerConfig → (Bool × Nat) × List OptimizerConfig
  | [] => ((false, max_steps), [])
  | c :: rest =>
    if (oracle c).converged then ((true, (oracle c).nsteps), [c])
    else
      let r := run_attempts oracle max_steps rest
      (r.1, c :: r.2)

/-! ## Orchestrator (io_step.py) -/

/-- The results dictionary run_neb_calculation returns to the orchestrator. -/
structure NebResults where
  neb_converged : Bool
  climb_converged : Bool
  analysis_ok : Bool
  prefactor_ok : Bool
  neb_steps : Nat
  climb_steps : Nat
  barrier_eV : Option Rat
  prefactor_THz : Option Rat
  deriving Repr, DecidableEq

/-- Observable actions of one manage_path_calculations invocation: structure
file creations, collaborator calls, and the skip messages it logs. -/
inductive Event
  | createInitialStructure
  | createFinalStructure
  | relaxInitialCall
  | relaxFinalCall
  | skipInitialRelax
  | skipFinalRelax
  | runNebCall
  | skipNebAlreadyRun
  | skipNebNotReady
  deriving Repr, DecidableEq

/-- Existence of the data files of one task directory that
manage_path_calculations reads or writes. -/
structure DirFiles where
  initial_poscar : Bool
  final_poscar : Bool
  optimized_initial : Bool
  optimized_final : Bool
  deriving Repr, DecidableEq

/-- Behaviour of the external collaborators during one invocation: whether
each endpoint relaxation converges (run_vacancy_relaxation returns a
structure rather than None), and the dictionary run_neb_calculation would
return. -/
structure Env where
  relaxInitialOk : Bool
  relaxFinalOk : Bool
  nebResults : NebResults

/-- Combined state seen by the orchestrator: the checkpoint store and the
task directory's data files. -/
structure OrchState where
  sm : SMState
  files : DirFiles

/-- `manage_path_calculations` of io_step.py for one task directory, with the
scientific collaborators abstracted by `env`.  Returns the final state and
the ordered list of observable events. -/
def manage_path_calculations (env : Env) (dir : String) (st : OrchState) :
    OrchState × List Event :=
  let r0 := get_status st.sm dir
  let status := r0.record
  let sm0 := r0.state
  let s1 :=
    if st.files.initial_poscar then (st.files, ([] : List Event))
    else ({ st.files with initial_poscar := true },
          [Event.createInitialStructure])
  let s2 :=
    if s1.1.final_poscar then (s1.1, ([] : List Event))
    else ({ s1.1 with final_poscar := true }, [Event.createFinalStructure])
  let s3 :=
    if !status.initial_relax_complete then
      if env.relaxInitialOk then
        (update_status sm0 dir StatusKey.initialRelaxComplete true,
         { s2.1 with optimized_initial := true }, [Event.relaxInitialCall])
      else (sm0, s2.1, [Event.relaxInitialCall])
    else (sm0, s2.1, [Event.skipInitialRelax])
  let s4 :=
    if !status.final_relax_complete then
      if env.relaxFinalOk then
        (update_status s3.1 dir StatusKey.finalRelaxComplete true,
         { s3.2.1 with optimized_final := true }, [Event.relaxFinalCall])
      else (s3.1, s3.2.1, [Event.relaxFinalCall])
    else (s3.1, s3.2.1, [Event.skipFinalRelax])
  let rA := get_status s4.1 dir
  let rB := get_status rA.state dir
  let sm3 := rB.state
  let s5 :=
    if rA.record.initial_relax_complete && rB.record.final_relax_complete then
      if status.neb_steps_taken == 0 || status.neb_climb_steps_taken == 0 then
        let res := env.nebResults
        let smA := update_status sm3 dir StatusKey.nebStepsTaken res.neb_steps
        let smB :=
          update_status smA dir StatusKey.nebClimbStepsTaken res.climb_steps
        let smC :=
          if res.analysis_ok then
            update_status
              (update_status smB dir StatusKey.nebAnalysisComplete true)
              dir StatusKey.nebBarrier_eV res.barrier_eV
          else smB
        let smD :=
          if res.prefactor_ok then
            update_status
              (update_status smC dir StatusKey.prefactorComplete true)
              dir StatusKey.prefactorTHz res.prefactor_THz
          else smC
        (smD, [Event.runNebCall])
      else (sm3, [Event.skipNebAlreadyRun])
    else (sm3, [Event.skipNebNotReady])
  (⟨s5.1, s4.2.1⟩, s1.2 ++ s2.2 ++ s3.2.2 ++ s4.2.2 ++ s5.2)

/-! ## Endpoint structure construction (io_step.py, step 1) -/

/-- Fractional coordinates of a site. -/
structure Vec3 where
  fa : Rat
  fb : Rat
  fc : Rat
  deriving Repr, DecidableEq, Inhabited

/-- One site of a pymatgen structure: species symbol and fractional
coordinates. -/
structure Site where
  symbol : String
  frac_coords : Vec3
  deriving Repr, DecidableEq, Inhabited

/-- `structure.remove_sites([i])`: delete the site at index `i`, shifting the
indices above it down by one. -/
def remove_sites (s : List Site) (i : Nat) : List Site := s.eraseIdx i

/-- The initial endpoint: the pristine supercell with the vacancy site
removed. -/
def make_initial_structure (pristine : List Site) (vacancy_idx : Nat) :
    List Site :=
  remove_sites pristine vacancy_idx

/-- The index of the migrating atom after the vacancy removal, as computed by
manage_path_calculations. -/
def migrating_atom_new_idx (migrating_atom_idx vacancy_idx : Nat) : Nat :=
  if migrating_atom_idx > vacancy_idx then migrating_atom_idx - 1
  else migrating_atom_idx

/-- The final endpoint: vacancy removed, then the migrating atom's fractional
coordinates overwritten with the vacancy's original coordinates. -/
def make_final_structure (pristine : List Site)
    (migrating_atom_idx vacancy_idx : Nat) : List Site :=
  let final_structure := remove_sites pristine vacancy_idx
  let idx := migrating_atom_new_idx migrating_atom_idx vacancy_idx
  let destination_coords := (pristine.getD vacancy_idx default).frac_coords
  final_structure.set idx
    { final_structure.getD idx default with frac_coords := destination_coords }

/-! ## Concrete fixtures used by witnesses and counterexamples -/

/-- A filesystem with no status files. -/
def emptyFS : String → Option FileContent := fun _ => none

/-- A filesystem whose only status file, in directory `A`, is corrupted. -/
def corruptAFS : String → Option FileContent :=
  fun d => if d = "A" then some FileContent.corrupt else none

/-- An on-disk record missing every key except the two relaxation flags. -/
def p0 : PartialStatus :=
  { initial_relax_complete := some true
    final_relax_complete := some false
    neb_steps_taken := none
    neb_climb_steps_taken := none
    neb_analysis_complete := none
    prefactor_complete := none
    neb_barrier_eV := none
    prefactor_THz := none }

/-- A filesystem whose only status file, in directory `A`, holds `p0`. -/
def partialAFS : String → Option FileContent :=
  fun d => if d = "A" then some (FileContent.valid p0) else none

/-- A collaborator behaviour for which only the last standard-stage
configuration (LBFGS with the aseneb method) converges, in 42 steps. -/
def lastOnlyOracle : OptimizerConfig → AttemptOutcome :=
  fun c =>
    if c.optimizer = OptAlgo.LBFGS ∧ c.method = "aseneb" then ⟨true, 42⟩
    else ⟨false, 0⟩

/-- A task record with both relaxation flags true, a nonzero standard step
counter and a zero climbing step counter (a prior attempt whose standard
stage converged — or saturated — but whose climbing stage never recorded
steps). -/
def c1Status : Status :=
  { initial_relax_complete := true
    final_relax_complete := true
    neb_steps_taken := 5
    neb_climb_steps_taken := 0
    neb_analysis_complete := false
    prefactor_complete := false
    neb_barrier_eV := none
    prefactor_THz := none }

/-- A filesystem whose only status file, in directory `P`, holds `c1Status`
in full. -/
def c1FS : String → Option FileContent :=
  fun d =>
    if d = "P" then some (FileContent.valid (statusToPartial c1Status))
    else none

/-- A collaborator behaviour where every stage succeeds except analysis and
prefactor computation. -/
def c1Env : Env :=
  { relaxInitialOk := true
    relaxFinalOk := true
    nebResults :=
      { neb_converged := true
        climb_converged := true
        analysis_ok := false
        prefactor_ok := false
        neb_steps := 10
        climb_steps := 20
        barrier_eV := none
        prefactor_THz := none } }

/-- An orchestrator state for directory `P`: record `c1Status` on disk,
pristine defaults, and all data files already present. -/
def c1State : OrchState :=
  { sm := smState c1FS
    files :=
      { initial_poscar := true
        final_poscar := true
        optimized_initial := true
        optimized_final := true } }

/-- A two-site structure whose sites belong to one equivalence class, used to
compare signatures of hops that differ only in distance. -/
def c4X : Xtal :=
  { species := ["Li", "Li"]
    equivalent_atoms := fun _ => 0
    neighbors := fun _ => [] }

/-- A concrete two-site structure for exercising the hop deduplicator: both
sites are migrating ions of one equivalence class, and each lists the other
as its only neighbour at distance 3, so the two directed candidates share one
signature. -/
def c2X : Xtal :=
  { species := ["Li", "Li"]
    equivalent_atoms := fun _ => 0
    neighbors := fun i =>
      if i = 0 then [⟨1, 3, "Li"⟩] else if i = 1 then [⟨0, 3, "Li"⟩] else [] }

/-! ## Theorems -/

theorem mergeDefaults_statusToPartial (s d : Status) :
    mergeDefaults (statusToPartial s) d = s := by
  cases s
  rfl

theorem getKey_setKey_ne (s : Status) (k k2 : StatusKey) (v : k.Val)
    (h : k2 ≠ k) : getKey (setKey s k v) k2 = getKey s k2 := by
  cases k <;> cases k2 <;> first | rfl | exact absurd rfl h

/-- Claim C10: a read on a directory whose record file exists and parses
performs no write: the store state (hence the on-disk file) is unchanged,
missing schema keys are filled with defaults only in the returned record, and
the file gains the missing keys only through a subsequent write. -/
theorem read_parse_no_write (st : SMState) (dir : String) (p : PartialStatus)
    (h : st.fs dir = some (FileContent.valid p)) :
    (get_status st dir).state = st ∧
    (get_status st dir).record = mergeDefaults p st.defaults ∧
    (get_status st dir).state.fs dir = some (FileContent.valid p) ∧
    (∀ (k : StatusKey) (v : k.Val),
      (update_status st dir k v).fs dir =
        some (FileContent.valid
          (statusToPartial (setKey (mergeDefaults p st.defaults) k v)))) := by
  refine ⟨?_, ?_, ?_, ?_⟩
  · simp [get_status, h]
  · simp [get_status, h]
  · simp [get_status, h]
  · intro k v
    simp [update_status, get_status, h, Function.update_same]

/-- Witness for claim C10 at a concrete store: directory `A` holds a record
missing six keys; the read leaves the state untouched and returns the merged
record. -/
theorem read_parse_no_write_witness :
    (smState partialAFS).fs "A" = some (FileContent.valid p0) ∧
    (get_status (smState partialAFS) "A").state = smState partialAFS ∧
    (get_status (smState partialAFS) "A").record =
      mergeDefaults p0 DEFAULT_STATUS := by
  have h : (smState partialAFS).fs "A" = some (FileContent.valid p0) := rfl
  have r := read_parse_no_write (smState partialAFS) "A" p0 h
  exact ⟨h, r.1, r.2.1⟩

/-- Claim C5 fails on the code: `get_status` returns the module-level
`DEFAULT_STATUS` dictionary itself (no copy) in its file-absent branch, and
`update_status` then mutates that dictionary in place; after a write to a
record-less directory `A`, a read on a record-less directory `B` no longer
returns (or persists) the true default record.  This theorem evaluates the
embedded code at that failing input. -/
theorem get_status_defaults_polluted :
    (get_status (update_status (smState emptyFS) "A"
        StatusKey.initialRelaxComplete true) "B").record.initial_relax_complete
      = true ∧
    DEFAULT_STATUS.initial_relax_complete = false ∧
    (get_status (update_status (smState emptyFS) "A"
        StatusKey.initialRelaxComplete true) "B").state.fs "B" =
      some (FileContent.valid
        (statusToPartial (setKey DEFAULT_STATUS
          StatusKey.initialRelaxComplete true))) := by
  refine ⟨?_, rfl, ?_⟩ <;> decide

/-- Claim C6: on a directory whose record file is corrupted (and with the
module-level defaults unpolluted), a read returns the default record,
overwrites the file with a fresh valid default record, and the repair is
idempotent: a second read returns the same default record and changes
nothing.  The embedding is a total function, so no exception propagates. -/
theorem read_corrupt_repair (st : SMState) (dir : String)
    (hc : st.fs dir = some FileContent.corrupt)
    (hd : st.defaults = DEFAULT_STATUS) :
    (get_status st dir).record = DEFAULT_STATUS ∧
    (get_status st dir).state.fs dir =
      some (FileContent.valid (statusToPartial DEFAULT_STATUS)) ∧
    (get_status (get_status st dir).state dir).record = DEFAULT_STATUS ∧
    (get_status (get_status st dir).state dir).state =
      (get_status st dir).state := by
  refine ⟨?_, ?_, ?_, ?_⟩
  · simp [get_status, hc, hd]
  · simp [get_status, hc, hd, Function.update_same]
  · simp [get_status, hc, hd, Function.update_same,
      mergeDefaults_statusToPartial]
  · simp [get_status, hc, hd, Function.update_same]

/-- Witness for claim C6 at a concrete store with a corrupted record in
directory `A`. -/
theorem read_corrupt_repair_witness :
    (smState corruptAFS).fs "A" = some FileContent.corrupt ∧
    (get_status (smState corruptAFS) "A").record = DEFAULT_STATUS ∧
    (get_status (get_status (smState corruptAFS) "A").state "A").record =
      DEFAULT_STATUS := by
  have hc : (smState corruptAFS).fs "A" = some FileContent.corrupt := rfl
  have r := read_corrupt_repair (smState corruptAFS) "A" hc rfl
  exact ⟨hc, r.1, r.2.2.1⟩

/-- Claim C7: a write of one schema key followed by a read yields a record
agreeing with the record read before the write on every other key (and
holding the written value at the named key), for every store state. -/
theorem write_read_frame (st : SMState) (dir : String) (k : StatusKey)
    (v : k.Val) (k2 : StatusKey) (hne : k2 ≠ k) :
    getKey (get_status (update_status (get_status st dir).state dir k v)
        dir).record k2
      = getKey (get_status st dir).record k2 ∧
    getKey (get_status (update_status (get_status st dir).state dir k v)
        dir).record k
      = v := by
  rcases hfs : st.fs dir with _ | f
  · constructor
    · simp [get_status, update_status, hfs, Function.update_same,
        mergeDefaults_statusToPartial, getKey_setKey_ne _ _ _ _ hne]
    · simp [get_status, update_status, hfs, Function.update_same,
        mergeDefaults_statusToPartial]
      cases k <;> rfl
  · cases f with
    | corrupt =>
      constructor
      · simp [get_status, update_status, hfs, Function.update_same,
          mergeDefaults_statusToPartial, getKey_setKey_ne _ _ _ _ hne]
      · simp [get_status, update_status, hfs, Function.update_same,
          mergeDefaults_statusToPartial]
        cases k <;> rfl
    | valid p =>
      constructor
      · simp [get_status, update_status, hfs, Function.update_same,
          mergeDefaults_statusToPartial, getKey_setKey_ne _ _ _ _ hne]
      · simp [get_status, update_status, hfs, Function.update_same,
          mergeDefaults_statusToPartial]
        cases k <;> rfl

/-- Witness for claim C7 at a concrete store: writing the step counter in
directory `A` preserves the initial relaxation flag. -/
theorem write_read_frame_witness :
    getKey (get_status (update_status
        (get_status (smState emptyFS) "A").state "A"
        StatusKey.nebStepsTaken (7 : Nat)) "A").record
        StatusKey.initialRelaxComplete
      = getKey (get_status (smState emptyFS) "A").record
          StatusKey.initialRelaxComplete ∧
    getKey (get_status (update_status
        (get_status (smState emptyFS) "A").state "A"
        StatusKey.nebStepsTaken (7 : Nat)) "A").record
        StatusKey.nebStepsTaken = (7 : Nat) :=
  write_read_frame (smState emptyFS) "A" StatusKey.nebStepsTaken (7 : Nat)
    StatusKey.initialRelaxComplete (by decide)

theorem run_attempts_first_conv (oracle : OptimizerConfig → AttemptOutcome)
    (max_steps : Nat) :
    ∀ (pre : List OptimizerConfig) (c : OptimizerConfig)
      (post : List OptimizerConfig),
      (∀ c2 ∈ pre, (oracle c2).converged = false) →
      (oracle c).converged = true →
      run_attempts oracle max_steps (pre ++ c :: post) =
        ((true, (oracle c).nsteps), pre ++ [c])
  | [], c, post, _, hc => by simp [run_attempts, hc]
  | a :: pre, c, post, hpre, hc => by
    have ha : (oracle a).converged = false := hpre a (List.mem_cons_self a pre)
    have ih := run_attempts_first_conv oracle max_steps pre c post
      (fun c2 h2 => hpre c2 (List.mem_cons_of_mem a h2)) hc
    simp [run_attempts, ha, ih]

theorem run_attempts_none_conv (oracle : OptimizerConfig → AttemptOutcome)
    (max_steps : Nat) :
    ∀ configs : List OptimizerConfig,
      (∀ c ∈ configs, (oracle c).converged = false) →
      run_attempts oracle max_steps configs = ((false, max_steps), configs)
  | [], _ => rfl
  | c :: rest, h => by
    have hc : (oracle c).converged = false := h c (List.mem_cons_self c rest)
    have ih := run_attempts_none_conv oracle max_steps rest
      (fun c2 h2 => h c2 (List.mem_cons_of_mem c h2))
    simp [run_attempts, hc, ih]

/-- Claim C3: the retry loop of run_neb_calculation returns on the first
configuration whose attempt converges, reporting convergence and that
attempt's exact step count, having attempted exactly the configurations up to
and including it in order; if every configuration fails, it reports
non-convergence with the full step budget as a saturation sentinel, having
attempted all configurations in the given order. -/
theorem run_attempts_retry_policy (oracle : OptimizerConfig → AttemptOutcome)
    (max_steps : Nat) (_hpos : 0 < max_steps)
    (configs : List OptimizerConfig) :
    (∀ pre c post, configs = pre ++ c :: post →
      (∀ c2 ∈ pre, (oracle c2).converged = false) →
      (oracle c).converged = true →
      run_attempts oracle max_steps configs =
        ((true, (oracle c).nsteps), pre ++ [c])) ∧
    ((∀ c ∈ configs, (oracle c).converged = false) →
      run_attempts oracle max_steps configs = ((false, max_steps), configs)) := by
  constructor
  · rintro pre c post rfl hpre hc
    exact run_attempts_first_conv oracle max_steps pre c post hpre hc
  · exact run_attempts_none_conv oracle max_steps configs

/-- Witness for claim C3: under a collaborator for which only the fourth
standard-stage configuration converges (in 42 steps), the loop attempts all
four configurations in order and reports 42 steps. -/
theorem run_attempts_retry_policy_witness :
    run_attempts lastOnlyOracle 5000 optimizers_to_try =
      ((true, (lastOnlyOracle ⟨OptAlgo.LBFGS, "aseneb", 1 / 100⟩).nsteps),
        [⟨OptAlgo.FIRE, "improvedtangent", 1 / 100⟩,
         ⟨OptAlgo.FIRE, "aseneb", 1 / 100⟩,
         ⟨OptAlgo.LBFGS, "improvedtangent", 1 / 100⟩] ++
          [⟨OptAlgo.LBFGS, "aseneb", 1 / 100⟩]) :=
  (run_attempts_retry_policy lastOnlyOracle 5000 (by decide)
      optimizers_to_try).1
    [⟨OptAlgo.FIRE, "improvedtangent", 1 / 100⟩,
     ⟨OptAlgo.FIRE, "aseneb", 1 / 100⟩,
     ⟨OptAlgo.LBFGS, "improvedtangent", 1 / 100⟩]
    ⟨OptAlgo.LBFGS, "aseneb", 1 / 100⟩ [] rfl (by decide) (by decide)

/-- Claim C9: constructing the final endpoint by removing the vacancy site
decrements the migrating index exactly when it exceeds the vacancy index, so
the relocated site is always the original migrating atom; the final structure
has exactly one site fewer than the pristine structure, keeps the migrating
atom's species while moving it to the vacancy's fractional coordinates, and
agrees with the initial endpoint on every other site. -/
theorem make_final_structure_spec (pristine : List Site) (m v : Nat)
    (hm : m < pristine.length) (hv : v < pristine.length) (hmv : m ≠ v) :
    (make_final_structure pristine m v).length = pristine.length - 1 ∧
    (make_initial_structure pristine v).getD (migrating_atom_new_idx m v)
        default = pristine.getD m default ∧
    (make_final_structure pristine m v).getD (migrating_atom_new_idx m v)
        default =
      { symbol := (pristine.getD m default).symbol
        frac_coords := (pristine.getD v default).frac_coords } ∧
    (∀ j, j ≠ migrating_atom_new_idx m v →
      (make_final_structure pristine m v).getD j default =
        (make_initial_structure pristine v).getD j default) := by
  have hlen : (pristine.eraseIdx v).length = pristine.length - 1 :=
    List.length_eraseIdx_of_lt hv
  have hidx : migrating_atom_new_idx m v < (pristine.eraseIdx v).length := by
    rw [hlen]
    unfold migrating_atom_new_idx
    split <;> omega
  have hini : (pristine.eraseIdx v)[migrating_atom_new_idx m v]? =
      pristine[m]? := by
    unfold migrating_atom_new_idx
    by_cases h : m > v
    · rw [if_pos h, List.getElem?_eraseIdx_of_ge _ _ _ (by omega)]
      congr 1
      omega
    · rw [if_neg h]
      exact List.getElem?_eraseIdx_of_lt _ _ _ (by omega)
  have hini2 : (pristine.eraseIdx v).getD (migrating_atom_new_idx m v)
      default = pristine.getD m default := by
    rw [List.getD_eq_getElem?_getD, List.getD_eq_getElem?_getD, hini]
  have hfin_def : make_final_structure pristine m v =
      (pristine.eraseIdx v).set (migrating_atom_new_idx m v)
        { (pristine.eraseIdx v).getD (migrating_atom_new_idx m v) default with
          frac_coords := (pristine.getD v default).frac_coords } := rfl
  refine ⟨?_, ?_, ?_, ?_⟩
  · rw [hfin_def, List.length_set, hlen]
  · exact hini2
  · rw [hfin_def, List.getD_eq_getElem?_getD, List.getElem?_set_self hidx,
      Option.getD_some, hini2]
  · intro j hj
    rw [hfin_def, List.getD_eq_getElem?_getD,
      List.getElem?_set_ne (fun h => hj h.symm)]
    simp [make_initial_structure, remove_sites]

/-- Witness for claim C9 on a concrete three-site structure with the
migrating atom at index 2 and the vacancy at index 0 (so the adjusted index
is 1). -/
theorem make_final_structure_spec_witness :
    (make_final_structure
        [⟨"Li", ⟨0, 0, 0⟩⟩, ⟨"O", ⟨1, 0, 0⟩⟩, ⟨"Li", ⟨0, 1, 0⟩⟩] 2 0).length
      = 2 ∧
    (make_final_structure
        [⟨"Li", ⟨0, 0, 0⟩⟩, ⟨"O", ⟨1, 0, 0⟩⟩, ⟨"Li", ⟨0, 1, 0⟩⟩] 2 0).getD
        (migrating_atom_new_idx 2 0) default =
      { symbol := "Li", frac_coords := ⟨0, 0, 0⟩ } ∧
    (make_final_structure
        [⟨"Li", ⟨0, 0, 0⟩⟩, ⟨"O", ⟨1, 0, 0⟩⟩, ⟨"Li", ⟨0, 1, 0⟩⟩] 2 0).getD 0
        default =
      (make_initial_structure
        [⟨"Li", ⟨0, 0, 0⟩⟩, ⟨"O", ⟨1, 0, 0⟩⟩, ⟨"Li", ⟨0, 1, 0⟩⟩] 0).getD 0
        default := by
  have r := make_final_structure_spec
    [⟨"Li", ⟨0, 0, 0⟩⟩, ⟨"O", ⟨1, 0, 0⟩⟩, ⟨"Li", ⟨0, 1, 0⟩⟩] 2 0
    (by decide) (by decide) (by decide)
  refine ⟨r.1, ?_, r.2.2.2 0 (by decide)⟩
  rw [r.2.2.1]
  rfl

theorem get_status_stable_record (st : SMState) (dir : String) :
    (get_status (get_status st dir).state dir).record =
      (get_status st dir).record := by
  rcases hfs : st.fs dir with _ | f
  · simp [get_status, hfs, Function.update_same, mergeDefaults_statusToPartial]
  · cases f with
    | corrupt =>
      simp [get_status, hfs, Function.update_same,
        mergeDefaults_statusToPartial]
    | valid p => simp [get_status, hfs]

theorem get_status_stable_state (st : SMState) (dir : String) :
    (get_status (get_status st dir).state dir).state =
      (get_status st dir).state := by
  rcases hfs : st.fs dir with _ | f
  · simp [get_status, hfs, Function.update_same]
  · cases f with
    | corrupt => simp [get_status, hfs, Function.update_same]
    | valid p => simp [get_status, hfs]

theorem get_status_update_record (st : SMState) (dir : String)
    (k : StatusKey) (v : k.Val) :
    (get_status (update_status st dir k v) dir).record =
      setKey (get_status st dir).record k v := by
  rcases hfs : st.fs dir with _ | f
  · simp [get_status, update_status, hfs, Function.update_same,
      mergeDefaults_statusToPartial]
  · cases f with
    | corrupt =>
      simp [get_status, update_status, hfs, Function.update_same,
        mergeDefaults_statusToPartial]
    | valid p =>
      simp [get_status, update_status, hfs, Function.update_same,
        mergeDefaults_statusToPartial]

theorem get_status_update_state (st : SMState) (dir : String)
    (k : StatusKey) (v : k.Val) :
    (get_status (update_status st dir k v) dir).state =
      update_status st dir k v := by
  rcases hfs : st.fs dir with _ | f
  · simp [get_status, update_status, hfs, Function.update_same]
  · cases f with
    | corrupt => simp [get_status, update_status, hfs, Function.update_same]
    | valid p => simp [get_status, update_status, hfs, Function.update_same]

/-- Claim C1 fails on the code: the orchestrator's guard is
`neb_steps_taken == 0 OR neb_climb_steps_taken == 0`, so with both relaxation
flags true, `neb_steps_taken = 5 > 0` and `neb_climb_steps_taken = 0` in the
record read at task start, the optimization stage is invoked again — the
claim says a nonzero `neb_steps_taken` alone already blocks re-running. -/
theorem manage_path_reruns_neb_counterexample :
    (get_status c1State.sm "P").record.neb_steps_taken = 5 ∧
    (get_status c1State.sm "P").record.initial_relax_complete = true ∧
    (get_status c1State.sm "P").record.final_relax_complete = true ∧
    Event.runNebCall ∈ (manage_path_calculations c1Env "P" c1State).2 := by
  refine ⟨rfl, rfl, rfl, ?_⟩
  decide

/-- Claim C1 amended: for a task whose record at task start has both
relaxation flags true, the standard optimization (NEB) stage is run exactly
when at least one of the two step counters is zero; it is skipped (with a
skip message) only when both counters are already nonzero. -/
theorem manage_path_neb_guard (env : Env) (dir : String) (st : OrchState)
    (h1 : (get_status st.sm dir).record.initial_relax_complete = true)
    (h2 : (get_status st.sm dir).record.final_relax_complete = true) :
    ((get_status st.sm dir).record.neb_steps_taken = 0 ∨
        (get_status st.sm dir).record.neb_climb_steps_taken = 0 →
      Event.runNebCall ∈ (manage_path_calculations env dir st).2) ∧
    ((get_status st.sm dir).record.neb_steps_taken ≠ 0 →
      (get_status st.sm dir).record.neb_climb_steps_taken ≠ 0 →
      Event.runNebCall ∉ (manage_path_calculations env dir st).2 ∧
      Event.skipNebAlreadyRun ∈ (manage_path_calculations env dir st).2) := by
  constructor
  · intro h
    unfold manage_path_calculations
    rcases h with h | h <;>
      simp [h1, h2, h, get_status_stable_record, get_status_stable_state]
  · intro ha hb
    unfold manage_path_calculations
    rcases hA : st.files.initial_poscar <;>
      rcases hB : st.files.final_poscar <;>
        simp [h1, h2, ha, hb, hA, hB, get_status_stable_record,
          get_status_stable_state]

/-- Witness for the amended claim C1 at a concrete task state (`c1State`,
whose counters are 5 and 0): the stage runs because the climbing counter is
zero. -/
theorem manage_path_neb_guard_witness :
    Event.runNebCall ∈ (manage_path_calculations c1Env "P" c1State).2 :=
  (manage_path_neb_guard c1Env "P" c1State rfl rfl).1 (Or.inr rfl)

/-- Claim C8: re-invoking the orchestrator on a task whose record already has
a relaxation completion flag true is a no-op for that endpoint's relaxation
stage: the relaxation collaborator is not called for it, only a skip message
is logged, the persisted relaxed configuration file is untouched, and the
flag is still true in the record at the end of the invocation (stated for the
initial endpoint and symmetrically for the final endpoint). -/
theorem orchestrator_resume_skip (env : Env) (dir : String) (st : OrchState) :
    ((get_status st.sm dir).record.initial_relax_complete = true →
      Event.relaxInitialCall ∉ (manage_path_calculations env dir st).2 ∧
      Event.skipInitialRelax ∈ (manage_path_calculations env dir st).2 ∧
      (manage_path_calculations env dir st).1.files.optimized_initial =
        st.files.optimized_initial ∧
      (get_status (manage_path_calculations env dir st).1.sm
          dir).record.initial_relax_complete = true) ∧
    ((get_status st.sm dir).record.final_relax_complete = true →
      Event.relaxFinalCall ∉ (manage_path_calculations env dir st).2 ∧
      Event.skipFinalRelax ∈ (manage_path_calculations env dir st).2 ∧
      (manage_path_calculations env dir st).1.files.optimized_final =
        st.files.optimized_final ∧
      (get_status (manage_path_calculations env dir st).1.sm
          dir).record.final_relax_complete = true) := by
  constructor
  · intro h1
    unfold manage_path_calculations
    rcases hA : st.files.initial_poscar <;>
    rcases hB : st.files.final_poscar <;>
    rcases hb : (get_status st.sm dir).record.final_relax_complete <;>
    rcases hfo : env.relaxFinalOk <;>
    rcases hcnt : ((get_status st.sm dir).record.neb_steps_taken == 0 ||
      (get_status st.sm dir).record.neb_climb_steps_taken == 0) <;>
    rcases han : env.nebResults.analysis_ok <;>
    rcases hpf : env.nebResults.prefactor_ok <;>
      simp [h1, hA, hB, hb, hfo, hcnt, han, hpf, get_status_stable_record,
        get_status_stable_state, get_status_update_record,
        get_status_update_state, setKey]
  · intro h2
    unfold manage_path_calculations
    rcases hA : st.files.initial_poscar <;>
    rcases hB : st.files.final_poscar <;>
    rcases ha : (get_status st.sm dir).record.initial_relax_complete <;>
    rcases hio : env.relaxInitialOk <;>
    rcases hcnt : ((get_status st.sm dir).record.neb_steps_taken == 0 ||
      (get_status st.sm dir).record.neb_climb_steps_taken == 0) <;>
    rcases han : env.nebResults.analysis_ok <;>
    rcases hpf : env.nebResults.prefactor_ok <;>
      simp [h2, hA, hB, ha, hio, hcnt, han, hpf, get_status_stable_record,
        get_status_stable_state, get_status_update_record,
        get_status_update_state, setKey]

/-- Witness for claim C8 at the concrete task state `c1State` (both
relaxation flags true on disk): neither relaxation collaborator is called and
both skip messages are logged. -/
theorem orchestrator_resume_skip_witness :
    Event.relaxInitialCall ∉ (manage_path_calculations c1Env "P" c1State).2 ∧
    Event.relaxFinalCall ∉ (manage_path_calculations c1Env "P" c1State).2 ∧
    Event.skipInitialRelax ∈ (manage_path_calculations c1Env "P" c1State).2 ∧
    Event.skipFinalRelax ∈ (manage_path_calculations c1Env "P" c1State).2 := by
  have r := orchestrator_resume_skip c1Env "P" c1State
  exact ⟨(r.1 rfl).1, (r.2 rfl).1, (r.1 rfl).2.1, (r.2 rfl).2.1⟩

/-- Claim C4 fails on the code: Python's `round` rounds an exact tie to the
even neighbour, not away from zero.  At precision 2, the distance 1/8
(= 0.125) rounds to 0.12 (not 0.13 as half-up rounding would give), and the
distances 1/8 and 23/200 (= 0.115), whose half-up roundings at precision 2
differ (0.13 vs 0.12), receive the same rounded value 0.12, hence equal hop
signatures. -/
theorem hopSig_rounding_counterexample :
    roundHalfUpAt 2 (1 / 8) = 13 / 100 ∧
    roundHalfUpAt 2 (23 / 200) = 12 / 100 ∧
    pyRound 2 (1 / 8) = 12 / 100 ∧
    pyRound 2 (1 / 8) ≠ roundHalfUpAt 2 (1 / 8) ∧
    hopSig c4X 2 0 ⟨1, 1 / 8, "Li"⟩ = hopSig c4X 2 0 ⟨1, 23 / 200, "Li"⟩ := by
  have h1 : (⌊((1 : ℚ) / 8 * 10 ^ 2 + 1 / 2)⌋ : Int) = 13 := by
    rw [Int.floor_eq_iff]
    norm_num
  have h2 : (⌊((23 : ℚ) / 200 * 10 ^ 2 + 1 / 2)⌋ : Int) = 12 := by
    rw [Int.floor_eq_iff]
    norm_num
  have h3 : (⌊((1 : ℚ) / 8 * 10 ^ 2)⌋ : Int) = 12 := by
    rw [Int.floor_eq_iff]
    norm_num
  have h4 : (⌊((23 : ℚ) / 200 * 10 ^ 2)⌋ : Int) = 11 := by
    rw [Int.floor_eq_iff]
    norm_num
  have hu1 : roundHalfUpAt 2 (1 / 8) = 13 / 100 := by
    unfold roundHalfUpAt
    rw [h1]
    norm_num
  have hu2 : roundHalfUpAt 2 (23 / 200) = 12 / 100 := by
    unfold roundHalfUpAt
    rw [h2]
    norm_num
  have hp1 : pyRound 2 (1 / 8) = 12 / 100 := by
    unfold pyRound roundHalfEvenInt
    rw [h3]
    norm_num
  have hp2 : pyRound 2 (23 / 200) = 12 / 100 := by
    unfold pyRound roundHalfEvenInt
    rw [h4]
    norm_num
  refine ⟨hu1, hu2, hp1, ?_, ?_⟩
  · rw [hp1, hu1]
    norm_num
  · unfold hopSig
    rw [show (⟨1, 1 / 8, "Li"⟩ : Neighbor).nn_distance = 1 / 8 from rfl,
      show (⟨1, 23 / 200, "Li"⟩ : Neighbor).nn_distance = 23 / 200 from rfl,
      hp1, hp2]

/-- Claim C4 amended: the distance component of every hop signature is
computed by round-half-to-even (banker) rounding at the configured decimal
precision: two distances whose half-even roundings differ yield different
signatures, and a distance exactly midway between two representable values
rounds to the even neighbour (so 0.125 at precision 2 rounds to 0.12, not
0.13). -/
theorem hopSig_rounding_policy (prec : Nat) :
    (∀ (x : Xtal) (i : Nat) (nb1 nb2 : Neighbor),
      pyRound prec nb1.nn_distance ≠ pyRound prec nb2.nn_distance →
      hopSig x prec i nb1 ≠ hopSig x prec i nb2) ∧
    (∀ (q : Rat) (n : Int), q * 10 ^ prec = (n : Rat) + 1 / 2 →
      pyRound prec q =
        (((if n % 2 = 0 then n else n + 1) : Int) : Rat) / 10 ^ prec) := by
  constructor
  · intro x i nb1 nb2 hne heq
    exact hne (congrArg Prod.snd heq)
  · intro q n h
    unfold pyRound roundHalfEvenInt
    rw [h]
    have hf : (⌊(n : ℚ) + 1 / 2⌋ : Int) = n := by
      rw [Int.floor_eq_iff]
      constructor
      · linarith
      · linarith

    rw [hf]
    have hd : (n : ℚ) + 1 / 2 - (n : Int) = 1 / 2 := by
      ring
    rw [hd]
    simp

/-- Witness for the amended claim C4: at precision 2 the tie 1/8 · 10² =
12 + 1/2 rounds to the even neighbour 12, giving 0.12. -/
theorem hopSig_rounding_policy_witness :
    pyRound 2 (1 / 8) =
      (((if (12 : Int) % 2 = 0 then (12 : Int) else 12 + 1) : Int) : Rat) /
        10 ^ 2 :=
  (hopSig_rounding_policy 2).2 (1 / 8) 12 (by norm_num)

theorem dedupFirstS_append (sig : Candidate → HopSig) :
    ∀ (as bs : List Candidate) (seen : List HopSig),
      dedupFirstS sig (as ++ bs) seen =
        ((dedupFirstS sig as seen).1 ++
          (dedupFirstS sig bs (dedupFirstS sig as seen).2).1,
         (dedupFirstS sig bs (dedupFirstS sig as seen).2).2)
  | [], bs, seen => by simp [dedupFirstS]
  | a :: as, bs, seen => by
    by_cases h : sig a ∈ seen
    · simp [dedupFirstS, h, dedupFirstS_append sig as bs seen]
    · simp [dedupFirstS, h, dedupFirstS_append sig as bs (sig a :: seen)]

theorem dedupFirstS_pairwise (sig : Candidate → HopSig) :
    ∀ (cs : List Candidate) (seen : List HopSig),
      (dedupFirstS sig cs seen).1.Pairwise (fun a b => sig a ≠ sig b) ∧
      ∀ c ∈ (dedupFirstS sig cs seen).1, sig c ∉ seen
  | [], seen => by simp [dedupFirstS]
  | c :: cs, seen => by
    by_cases h : sig c ∈ seen
    · simpa [dedupFirstS, h] using dedupFirstS_pairwise sig cs seen
    · have ih := dedupFirstS_pairwise sig cs (sig c :: seen)
      have key : dedupFirstS sig (c :: cs) seen =
          (c :: (dedupFirstS sig cs (sig c :: seen)).1,
           (dedupFirstS sig cs (sig c :: seen)).2) := by
        simp [dedupFirstS, h]
      rw [key]
      constructor
      · rw [List.pairwise_cons]
        refine ⟨?_, ih.1⟩
        intro b hb he
        exact ih.2 b hb (he ▸ List.mem_cons_self _ _)
      · intro a ha
        rcases List.mem_cons.mp ha with rfl | ha2
        · exact h
        · exact fun hseen => ih.2 a ha2 (List.mem_cons_of_mem _ hseen)

theorem dedupFirstS_first_mem (sig : Candidate → HopSig) :
    ∀ (pre : List Candidate) (c : Candidate) (post : List Candidate)
      (seen : List HopSig),
      sig c ∉ seen →
      (∀ c2 ∈ pre, sig c2 ≠ sig c) →
      c ∈ (dedupFirstS sig (pre ++ c :: post) seen).1
  | [], c, post, seen, hns, _ => by simp [dedupFirstS, hns]
  | a :: pre, c, post, seen, hns, hpre => by
    by_cases h : sig a ∈ seen
    · simp only [List.cons_append, dedupFirstS, if_pos h]
      exact dedupFirstS_first_mem sig pre c post seen hns
        (fun c2 h2 => hpre c2 (List.mem_cons_of_mem _ h2))
    · have ha : sig a ≠ sig c := hpre a (List.mem_cons_self _ _)
      have hrec : c ∈ (dedupFirstS sig (pre ++ c :: post) (sig a :: seen)).1 :=
        dedupFirstS_first_mem sig pre c post (sig a :: seen)
          (by
            intro hmem
            rcases List.mem_cons.mp hmem with he | he
            · exact ha he.symm
            · exact hns he)
          (fun c2 h2 => hpre c2 (List.mem_cons_of_mem _ h2))
      simp only [List.cons_append, dedupFirstS, if_neg h]
      exact List.mem_cons_of_mem _ hrec

theorem dedupFirstS_mem_first (sig : Candidate → HopSig) :
    ∀ (cs : List Candidate) (seen : List HopSig) (c : Candidate),
      c ∈ (dedupFirstS sig cs seen).1 →
      sig c ∉ seen ∧
      ∃ pre post, cs = pre ++ c :: post ∧ ∀ c2 ∈ pre, sig c2 ≠ sig c
  | [], seen, c => by simp [dedupFirstS]
  | a :: cs, seen, c => by
    by_cases h : sig a ∈ seen
    · intro hc
      have hc2 : c ∈ (dedupFirstS sig cs seen).1 := by
        simpa [dedupFirstS, h] using hc
      obtain ⟨hns, pre, post, heq, hpre⟩ :=
        dedupFirstS_mem_first sig cs seen c hc2
      refine ⟨hns, a :: pre, post, by rw [heq]; rfl, ?_⟩
      intro c2 h2
      rcases List.mem_cons.mp h2 with rfl | h3
      · exact fun he => hns (he ▸ h)
      · exact hpre c2 h3
    · intro hc
      have hc2 : c = a ∨ c ∈ (dedupFirstS sig cs (sig a :: seen)).1 := by
        simpa [dedupFirstS, h] using hc
      rcases hc2 with rfl | hc2
      · exact ⟨h, [], cs, rfl, by simp⟩
      · obtain ⟨hns, pre, post, heq, hpre⟩ :=
          dedupFirstS_mem_first sig cs (sig a :: seen) c hc2
        have hsc : sig c ∉ seen := fun hx => hns (List.mem_cons_of_mem _ hx)
        have hac : sig a ≠ sig c :=
          fun he => hns (he ▸ List.mem_cons_self _ _)
        refine ⟨hsc, a :: pre, post, by rw [heq]; rfl, ?_⟩
        intro c2 h2
        rcases List.mem_cons.mp h2 with rfl | h3
        · exact hac
        · exact hpre c2 h3

theorem dedupFirstS_covers (sig : Candidate → HopSig) :
    ∀ (cs : List Candidate) (seen : List HopSig) (c : Candidate),
      c ∈ cs → sig c ∉ seen →
      ∃ c2 ∈ (dedupFirstS sig cs seen).1, sig c2 = sig c
  | [], _, c => by simp
  | a :: cs, seen, c => by
    intro hc hns
    by_cases h : sig a ∈ seen
    · have key : dedupFirstS sig (a :: cs) seen = dedupFirstS sig cs seen := by
        simp [dedupFirstS, h]
      rcases List.mem_cons.mp hc with rfl | hc2
      · exact absurd h hns
      · rw [key]
        exact dedupFirstS_covers sig cs seen c hc2 hns
    · have key : (dedupFirstS sig (a :: cs) seen).1 =
          a :: (dedupFirstS sig cs (sig a :: seen)).1 := by
        simp [dedupFirstS, h]
      rw [key]
      rcases List.mem_cons.mp hc with rfl | hc2
      · exact ⟨c, List.mem_cons_self _ _, rfl⟩
      · by_cases hsa : sig c = sig a
        · exact ⟨a, List.mem_cons_self _ _, hsa.symm⟩
        · obtain ⟨c2, hc3, he⟩ :=
            dedupFirstS_covers sig cs (sig a :: seen) c hc2
              (by
                intro hx
                rcases List.mem_cons.mp hx with he2 | he2
                · exact hsa he2
                · exact hns he2)
          exact ⟨c2, List.mem_cons_of_mem _ hc3, he⟩

theorem process_neighbors_eq (x : Xtal) (mig : String) (prec : Nat) (i : Nat) :
    ∀ (nbs : List Neighbor) (seen : List HopSig) (out : List (Nat × Nat)),
      process_neighbors x mig prec i nbs seen out =
        ((dedupFirstS (candSig x prec)
            ((nbs.filter (fun nb => nb.symbol = mig)).map
              (fun nb => ⟨i, nb⟩)) seen).2,
         out ++ ((dedupFirstS (candSig x prec)
            ((nbs.filter (fun nb => nb.symbol = mig)).map
              (fun nb => ⟨i, nb⟩)) seen).1).map Candidate.hop)
  | [], seen, out => by simp [process_neighbors, dedupFirstS]
  | nb :: rest, seen, out => by
    by_cases hs : nb.symbol = mig
    · by_cases hm : hopSig x prec i nb ∈ seen
      · simp [process_neighbors, dedupFirstS, candSig, hs, hm,
          process_neighbors_eq x mig prec i rest seen out]
      · simp [process_neighbors, dedupFirstS, candSig, Candidate.hop, hs, hm,
          process_neighbors_eq x mig prec i rest
            (hopSig x prec i nb :: seen) (out ++ [(i, nb.index)])]
    · simp [process_neighbors, hs,
        process_neighbors_eq x mig prec i rest seen out]

theorem process_origins_eq (x : Xtal) (mig : String) (prec : Nat) :
    ∀ (idxs : List Nat) (seen : List HopSig) (out : List (Nat × Nat)),
      process_origins x mig prec idxs seen out =
        ((dedupFirstS (candSig x prec) (candidateList x mig idxs) seen).2,
         out ++ ((dedupFirstS (candSig x prec)
            (candidateList x mig idxs) seen).1).map Candidate.hop)
  | [], seen, out => by simp [process_origins, candidateList, dedupFirstS]
  | i :: rest, seen, out => by
    have h1 := process_neighbors_eq x mig prec i (x.neighbors i) seen out
    have h2 := process_origins_eq x mig prec rest
    have h3 := dedupFirstS_append (candSig x prec) (originCands x mig i)
      (candidateList x mig rest) seen
    simp only [originCands, candidateList] at h3
    simp [process_origins, candidateList, originCands, h1, h2, h3]

theorem find_unique_hops_eq (x : Xtal) (mig : String) (prec : Nat) :
    find_unique_hops x mig prec =
      ((dedupFirstS (candSig x prec)
        (candidateList x mig (migratingIndices x mig)) []).1).map
        Candidate.hop := by
  unfold find_unique_hops
  by_cases h : (migratingIndices x mig).isEmpty
  · have he : migratingIndices x mig = [] := by
      simpa [List.isEmpty_iff] using h
    rw [if_pos h, he]
    simp [candidateList, dedupFirstS]
  · rw [if_neg h, process_origins_eq]
    simp

/-- Claim C2: the deduplicated hop list equals the hops of the first-seen
candidate of each signature class, in traversal order (origins in index
order, then neighbors in radius-search return order): the retained candidates
have pairwise distinct signatures (so no two output hops share one), every
candidate's signature class is represented, every candidate preceded by no
same-signature candidate is retained, and every retained candidate is
preceded by no same-signature candidate. -/
theorem find_unique_hops_unique (x : Xtal) (mig : String) (prec : Nat) :
    find_unique_hops x mig prec =
      ((dedupFirstS (candSig x prec)
        (candidateList x mig (migratingIndices x mig)) []).1).map
        Candidate.hop ∧
    (dedupFirstS (candSig x prec)
        (candidateList x mig (migratingIndices x mig)) []).1.Pairwise
      (fun a b => candSig x prec a ≠ candSig x prec b) ∧
    (∀ c ∈ candidateList x mig (migratingIndices x mig),
      ∃ c2 ∈ (dedupFirstS (candSig x prec)
          (candidateList x mig (migratingIndices x mig)) []).1,
        candSig x prec c2 = candSig x prec c) ∧
    (∀ (pre : List Candidate) (c : Candidate) (post : List Candidate),
      candidateList x mig (migratingIndices x mig) = pre ++ c :: post →
      (∀ c2 ∈ pre, candSig x prec c2 ≠ candSig x prec c) →
      c ∈ (dedupFirstS (candSig x prec)
        (candidateList x mig (migratingIndices x mig)) []).1) ∧
    (∀ c ∈ (dedupFirstS (candSig x prec)
        (candidateList x mig (migratingIndices x mig)) []).1,
      ∃ pre post,
        candidateList x mig (migratingIndices x mig) = pre ++ c :: post ∧
        ∀ c2 ∈ pre, candSig x prec c2 ≠ candSig x prec c) := by
  refine ⟨find_unique_hops_eq x mig prec,
    (dedupFirstS_pairwise (candSig x prec)
      (candidateList x mig (migratingIndices x mig)) []).1, ?_, ?_, ?_⟩
  · intro c hc
    exact dedupFirstS_covers (candSig x prec) _ [] c hc (by simp)
  · intro pre c post heq hpre
    rw [heq]
    exact dedupFirstS_first_mem (candSig x prec) pre c post [] (by simp) hpre
  · intro c hc
    exact (dedupFirstS_mem_first (candSig x prec) _ [] c hc).2

/-- Witness for claim C2 on the concrete structure `c2X`: the first directed
candidate (origin 0 to site 1), preceded by no candidate of equal signature,
is retained by the deduplicator. -/
theorem find_unique_hops_unique_witness :
    (⟨0, ⟨1, 3, "Li"⟩⟩ : Candidate) ∈
      (dedupFirstS (candSig c2X 2)
        (candidateList c2X "Li" (migratingIndices c2X "Li")) []).1 :=
  (find_unique_hops_unique c2X "Li" 2).2.2.2.1 [] ⟨0, ⟨1, 3, "Li"⟩⟩
    [⟨1, ⟨0, 3, "Li"⟩⟩] rfl (by simp)
